import Mathlib

/-!
Shallow embedding of `src/ffmpeg.ts` (class `FFmpegUtil`) from the
vscode-chronicler repository, together with theorems checking the
natural-language specification against it.

Conventions of the embedding:
* JavaScript runtime values that flow through the flag tables are modelled by
  `JSVal`; JS truthiness (`x || y`) is modelled by `truthy` / `jsOr`.
* The override bag `opts.flags` is modelled as a total function
  `String → JSVal`, where an absent key is `JSVal.undefined`
  (exactly what property access on a JS object yields).
* Child processes are not run; the embedding exposes the argument lists the
  code would pass to `Util.processToPromise`, and the pure text-scanning done
  on the captured discovery output.
* String interpolation `${e}` is modelled with `toString` on the embedded
  value, which agrees with JS stringification for the integer and string
  values that occur here.
-/

set_option maxRecDepth 40000

namespace Chronicler

/-- A JavaScript value as it occurs in the flag tables and override bags of
`ffmpeg.ts`: a string, a number (integral here), a boolean, or `undefined`. -/
inductive JSVal where
  | str (s : String)
  | num (n : Int)
  | bool (b : Bool)
  | undefined
  deriving DecidableEq

/-- JS truthiness for the values of `JSVal`: `0`, `""`, `false` and
`undefined` are falsy, everything else is truthy. -/
def truthy : JSVal → Bool
  | .str s => s ≠ ""
  | .num n => n ≠ 0
  | .bool b => b
  | .undefined => false

/-- The JS expression `a || b`: `a` when `a` is truthy, else `b`. -/
def jsOr (a b : JSVal) : JSVal :=
  if truthy a then a else b

/-- JS stringification of a `JSVal` as it happens when the value is handed to
the spawned process's argv. -/
def jsToString : JSVal → String
  | .str s => s
  | .num n => toString n
  | .bool b => if b then "true" else "false"
  | .undefined => "undefined"

namespace FFmpegUtil

/-- The three default parameter groups of `FFmpegUtil.recordingArgs`,
as ordered association lists (JS object literals keep insertion order). -/
structure ArgTables where
  common : List (String × JSVal)
  audio : List (String × JSVal)
  video : List (String × JSVal)

/-- `FFmpegUtil.recordingArgs` from `ffmpeg.ts` lines 10-26. -/
def recordingArgs : ArgTables where
  common := [("threads", .num 4), ("capture_cursor", .num 1)]
  audio := [("b:a", .str "384k"), ("c:a", .str "aac"), ("ac", .num 1), ("vbr", .num 3)]
  video := [("preset", .str "ultrafast"), ("crf", .num 22), ("c:v", .str "libx264")]

end FFmpegUtil

/-- Property access on a JS object represented as an association list:
a present key yields its value, an absent key yields `undefined`. -/
def tableFn (t : List (String × JSVal)) : String → JSVal :=
  fun k =>
    match t.find? (fun p => p.1 == k) with
    | some p => p.2
    | none => JSVal.undefined

/-- `Object.keys` of a JS object represented as an association list. -/
def tableKeys (t : List (String × JSVal)) : List String :=
  t.map Prod.fst

namespace FFmpegUtil

/-- `FFmpegUtil.get` (`ffmpeg.ts` lines 28-30):
`return [`-${key}`, src[customKeyOverride || key] || target[key]]`.
`src` is the caller's override bag, `target` the default table.  The flag
name in the output is always `-key`; `customKeyOverride` only changes which
key of `src` is consulted. -/
def get (src : String → JSVal) (key : String) (target : String → JSVal)
    (customKeyOverride : Option String) : List String :=
  let effKey :=
    match customKeyOverride with
    | some s => if s = "" then key else s
    | none => key
  ["-" ++ key, jsToString (jsOr (src effKey) (target key))]

/-- The key handed by `getAll` to `get`: the TS expression
`override ? override(k) : k`. -/
def ovKey (override : Option (String → String)) (k : String) : String :=
  match override with
  | some f => f k
  | none => k

/-- `FFmpegUtil.getAll` (`ffmpeg.ts` lines 32-37): a `reduce` that pushes the
pair produced by `get` for each key.  The `keys` argument is always supplied
explicitly here; at the call sites that rely on the TS default it is
`tableKeys` of the target table, which is exactly `Object.keys(target)`. -/
def getAll (src target : String → JSVal) (keys : List String)
    (override : Option (String → String)) : List String :=
  keys.foldl (fun acc k => acc ++ get src k target (some (ovKey override k))) []

end FFmpegUtil

/-- The capture region of a recording intent (`opts.bounds`). -/
structure Bounds where
  x : Int
  y : Int
  width : Int
  height : Int
  deriving DecidableEq

/-- The recording intent (`RecordingOptions` of `types.ts`, as consumed by
`ffmpeg.ts`): capture region, frame rate, optional duration, audio toggle,
output file, encoder binary and the free-form flag-override bag. -/
structure RecordingOptions where
  bounds : Bounds
  fps : Nat
  duration : Option Nat
  audio : Bool
  file : String
  ffmpegBinary : String
  flags : String → JSVal

/-- A resolved capture device: the `{ f, i }` objects built by
`getInputDevices` (format identifier and device-selector string). -/
structure Device where
  f : String
  i : String
  deriving DecidableEq

/-- Property access on a `{ f, i }` device object, as `getAll` performs it. -/
def deviceFn (d : Device) : String → JSVal :=
  fun k => if k = "f" then .str d.f else if k = "i" then .str d.i else .undefined

/-- The result shape of `getInputDevices`: an optional physical-screen
resolution (darwin only), a video device, and an optional audio device
(linux with audio only). -/
structure ResolvedInput where
  resolution : Option (Int × Int)
  video : Device
  audio : Option Device
  deriving DecidableEq

/-- `os.platform()` restricted to the cases `getInputDevices` dispatches on. -/
inductive Platform where
  | darwin
  | win32
  | linux
  | other
  deriving DecidableEq

/-- The effectful inputs of the darwin branch of device discovery:
the text captured from the encoder's device-listing stderr, and the
desktop bounds already parsed from the osascript query's stdout. -/
structure DarwinEnv where
  listText : String
  w : Int
  h : Int

/-! ### The text scanning of `getMacInputDevices`

`ffmpeg.ts` scans the captured stderr text with the regular expressions
`/\[(\d+)\]\s+Capture\s+Screen/i` and `/\[(\d+)\]\s+Mac[^\n]*Microphone/i`
via `String.prototype.match`, which returns the leftmost match.  The
matchers below implement exactly those two patterns on `List Char`:
`\d` is `[0-9]`, `\s` is ASCII whitespace, letters compare
case-insensitively, and `[^\n]*` ranges over non-newline characters. -/

/-- `\s` of the JS regexes involved: ASCII whitespace. -/
def jsIsSpace (c : Char) : Bool :=
  c == ' ' || c == '\t' || c == '\n' || c == '\r' || c == '\x0b' || c == '\x0c'

/-- Consume `pat` (given lowercase) case-insensitively at the head of the
input; return the rest on success. -/
def matchCI : List Char → List Char → Option (List Char)
  | [], cs => some cs
  | _ :: _, [] => none
  | p :: ps, c :: cs => if c.toLower == p then matchCI ps cs else none

/-- Consume `\s+`: at least one whitespace character, then greedily all the
following whitespace (the next pattern characters are never whitespace, so
greediness without backtracking is exact here). -/
def wsPlus : List Char → Option (List Char)
  | c :: rest => if jsIsSpace c then some (rest.dropWhile jsIsSpace) else none
  | [] => none

/-- Try `\[(\d+)\]\s+Capture\s+Screen` (case-insensitive) anchored at the
head of the input; return the digits of group 1 on success. -/
def captureScreenAt (cs : List Char) : Option (List Char) :=
  match cs with
  | '[' :: rest =>
    let ds := rest.takeWhile Char.isDigit
    let r1 := rest.dropWhile Char.isDigit
    if ds.isEmpty then none
    else
      match r1 with
      | ']' :: r2 =>
        (wsPlus r2).bind fun r3 =>
        (matchCI ['c', 'a', 'p', 't', 'u', 'r', 'e'] r3).bind fun r4 =>
        (wsPlus r4).bind fun r5 =>
        (matchCI ['s', 'c', 'r', 'e', 'e', 'n'] r5).map fun _ => ds
      | _ => none
  | _ => none

/-- `[^\n]*Microphone` (case-insensitive): scan forward over non-newline
characters looking for `Microphone`. -/
def micScan : List Char → Bool
  | [] => false
  | c :: cs =>
    match matchCI ['m', 'i', 'c', 'r', 'o', 'p', 'h', 'o', 'n', 'e'] (c :: cs) with
    | some _ => true
    | none => if c == '\n' then false else micScan cs

/-- Try `\[(\d+)\]\s+Mac[^\n]*Microphone` (case-insensitive) anchored at the
head of the input; return the digits of group 1 on success. -/
def micAt (cs : List Char) : Option (List Char) :=
  match cs with
  | '[' :: rest =>
    let ds := rest.takeWhile Char.isDigit
    let r1 := rest.dropWhile Char.isDigit
    if ds.isEmpty then none
    else
      match r1 with
      | ']' :: r2 =>
        (wsPlus r2).bind fun r3 =>
        (matchCI ['m', 'a', 'c'] r3).bind fun r4 =>
        if micScan r4 then some ds else none
      | _ => none
  | _ => none

/-- Leftmost-match search: try the anchored matcher at every position, left
to right (the semantics of `String.prototype.match` for these patterns). -/
def scanFor (f : List Char → Option (List Char)) : List Char → Option (List Char)
  | [] => none
  | c :: cs =>
    match f (c :: cs) with
    | some r => some r
    | none => scanFor f cs

/-- Group 1 of the leftmost `/\[(\d+)\]\s+Capture\s+Screen/i` match. -/
def findCaptureScreen (text : String) : Option String :=
  (scanFor captureScreenAt text.data).map fun ds => String.mk ds

/-- Group 1 of the leftmost `/\[(\d+)\]\s+Mac[^\n]*Microphone/i` match. -/
def findMic (text : String) : Option String :=
  (scanFor micAt text.data).map fun ds => String.mk ds

namespace FFmpegUtil

/-- The pure core of `FFmpegUtil.getMacInputDevices` (`ffmpeg.ts` lines
39-65), applied to the captured device-listing text: find the Capture
Screen index; with audio off return `'<video>:none'` immediately, otherwise
also find the Mac microphone index and return `'<video>:<audio>'`.
The returned selector carries the literal single quotes of the source. -/
def getMacInputDevices (text : String) (audioOn : Bool) : Except String String :=
  match findCaptureScreen text with
  | none => .error "Cannot find screen recording device"
  | some videoIndex =>
    if !audioOn then
      .ok ("\x27" ++ videoIndex ++ ":none\x27")
    else
      match findMic text with
      | none => .error "Cannot find microphone recording device"
      | some audioIndex => .ok ("\x27" ++ videoIndex ++ ":" ++ audioIndex ++ "\x27")

/-- `FFmpegUtil.getInputDevices` (`ffmpeg.ts` lines 67-105): the three-way
platform dispatch.  `env` carries the darwin discovery effects; the fall
through of the TS `switch` (no matching case) is `.ok none`, which
`launchProcess` turns into the unsupported-platform error. -/
def getInputDevices (plat : Platform) (env : DarwinEnv) (opts : RecordingOptions) :
    Except String (Option ResolvedInput) :=
  match plat with
  | .darwin =>
    match getMacInputDevices env.listText opts.audio with
    | .error e => .error e
    | .ok sel =>
      .ok (some { resolution := some (env.w, env.h)
                  video := { f := "avfoundation", i := sel }
                  audio := none })
  | .win32 =>
    .ok (some { resolution := none
                video := { f := "dshow"
                           i := if opts.audio then
                                  "video=\"UScreenCapture\":audio=\"Microphone\""
                                else
                                  "video=\"screen-capture-recorder\"" }
                audio := none })
  | .linux =>
    .ok (some { resolution := none
                video := { f := "x11grab", i := ":0.0" }
                audio := if opts.audio then some { f := "pulse", i := "default" } else none })
  | .other => .ok none

end FFmpegUtil

/-- The JS truthiness test `if (opts.duration)`: `undefined` and `0` are
falsy. -/
def durTruthy : Option Nat → Bool
  | some d => d != 0
  | none => false

namespace FFmpegUtil

/-- The initial `args` array of `launchProcess` (`ffmpeg.ts` lines 117-123):
common group, frame rate, geometry, video-device format, video-device
selector. -/
def baseArgs (opts : RecordingOptions) (input : ResolvedInput) : List String :=
  getAll opts.flags (tableFn recordingArgs.common) (tableKeys recordingArgs.common) none
    ++ ["-r", toString opts.fps]
    ++ ["-video_size", toString opts.bounds.width ++ "x" ++ toString opts.bounds.height]
    ++ getAll opts.flags (deviceFn input.video) ["f"] none
    ++ getAll opts.flags (deviceFn input.video) ["i"] none

/-- The conditional `args.unshift('-t', `${opts.duration}`)` of `ffmpeg.ts`
lines 125-127. -/
def withDur (opts : RecordingOptions) (args : List String) : List String :=
  if durTruthy opts.duration then "-t" :: toString (opts.duration.getD 0) :: args else args

/-- The conditional audio pushes of `ffmpeg.ts` lines 129-139: when audio is
requested, first the resolved audio device's pairs (override keys prefixed
with `audio_`, emitted flag names unchanged), then the audio default
group. -/
def withAudio (opts : RecordingOptions) (input : ResolvedInput) (args : List String) :
    List String :=
  if opts.audio then
    (match input.audio with
     | some dev =>
       args ++ getAll opts.flags (deviceFn dev) ["f"] (some fun x => "audio_" ++ x)
            ++ getAll opts.flags (deviceFn dev) ["i"] (some fun x => "audio_" ++ x)
     | none => args)
      ++ getAll opts.flags (tableFn recordingArgs.audio) (tableKeys recordingArgs.audio) none
  else args

/-- The filter-graph value of `ffmpeg.ts` lines 141-144: the crop
expression, chained after a lanczos scale stage when the resolver reported
a screen resolution. -/
def cropVf (opts : RecordingOptions) (input : ResolvedInput) : String :=
  let vf0 := "crop=" ++ toString opts.bounds.width ++ ":" ++ toString opts.bounds.height
    ++ ":" ++ toString opts.bounds.x ++ ":" ++ toString opts.bounds.y
  match input.resolution with
  | some wh => "scale=" ++ toString wh.1 ++ ":" ++ toString wh.2 ++ ":flags=lanczos," ++ vf0
  | none => vf0

/-- The argument list built by `FFmpegUtil.launchProcess` (`ffmpeg.ts` lines
107-152) before the output file is appended, in the source's mutation
order: base list, `unshift` of the duration pair, `push` of the audio
pairs, `push` of the video group and the single-quoted `-vf` value. -/
def launchProcessArgs (opts : RecordingOptions) (input : ResolvedInput) : List String :=
  withAudio opts input (withDur opts (baseArgs opts input))
    ++ getAll opts.flags (tableFn recordingArgs.video) (tableKeys recordingArgs.video) none
    ++ ["-vf", "\x27" ++ cropVf opts input ++ "\x27"]

/-- The full token sequence handed to the process-spawn collaborator:
`[...args, opts.file]` (`ffmpeg.ts` line 150). -/
def launchTokens (opts : RecordingOptions) (input : ResolvedInput) : List String :=
  launchProcessArgs opts input ++ [opts.file]

end FFmpegUtil

/-- The tokens at even positions of a list.  `launchProcessArgs` emits only
adjacent flag/value pairs, so on its output this extracts exactly the flag
names (values sit at the odd positions). -/
def evens : List String → List String
  | [] => []
  | [a] => [a]
  | a :: _ :: rest => a :: evens rest

/-! ### The GIF transcode pipeline (`generateGIF`) -/

/-- Replace the first occurrence of `pat` in the input with `rep`
(the semantics of JS `String.prototype.replace` with a string pattern),
on character lists. -/
def replaceFirstAux (pat rep : List Char) : List Char → List Char
  | [] => []
  | c :: cs =>
    if List.isPrefixOf pat (c :: cs) then rep ++ (c :: cs).drop pat.length
    else c :: replaceFirstAux pat rep cs

/-- `s.replace(pat, rep)` of JS for a string pattern: first occurrence only;
the original string when there is no occurrence. -/
def replaceFirst (s pat rep : String) : String :=
  String.mk (replaceFirstAux pat.data rep.data s.data)

/-- Whether `pat` occurs (as a contiguous run) anywhere in the input. -/
def occursIn (pat : List Char) : List Char → Bool
  | [] => List.isPrefixOf pat []
  | c :: cs => List.isPrefixOf pat (c :: cs) || occursIn pat cs

/-- `Math.trunc` on a rational: truncation toward zero (`Int.tdiv` is
T-division and `q.den` is positive). -/
def jsTrunc (q : ℚ) : Int :=
  q.num.tdiv (q.den : Int)

/-- The JS truthiness test `if (opts.scale)`: `undefined` and `0` are
falsy.  The caller-supplied scale factor is modelled as a rational. -/
def scaleTruthy : Option ℚ → Bool
  | some s => s != 0
  | none => false

namespace FFmpegUtil

/-- The shared filter chain `vf` of `generateGIF` (`ffmpeg.ts` lines
161-168): `fps=<fps>`, then either the scaled (truncated) or the unscaled
region dimensions, then `:flags=lanczos`. -/
def gifVf (opts : RecordingOptions) (scale : Option ℚ) : String :=
  let vf := "fps=" ++ toString opts.fps
  let vf :=
    if scaleTruthy scale then
      vf ++ ",scale=" ++ toString (jsTrunc ((opts.bounds.width : ℚ) * scale.getD 0))
         ++ ":" ++ toString (jsTrunc ((opts.bounds.height : ℚ) * scale.getD 0))
    else
      vf ++ ",scale=" ++ toString opts.bounds.width ++ ":" ++ toString opts.bounds.height
  vf ++ ":flags=lanczos"

/-- The observable outcome of a `generateGIF` call that passed the
encoder-binary guard: the binary it spawns, the argument lists of the two
stages, the temporary palette path, and the final output path that the
returned promise resolves to. -/
structure GifResult where
  binary : String
  paletteArgs : List String
  gifArgs : List String
  paletteFile : String
  final : String
  deriving DecidableEq

/-- `FFmpegUtil.generateGIF` (`ffmpeg.ts` lines 154-189).  `ffmpegBin` is
what `Config.getFFmpegBinary()` resolved (`none` = `undefined`), `tmpdir`
is `os.tmpdir()`; `path.resolve(tmpdir, 'palette-gen.png')` is modelled as
the joined path.  When the binary is missing the call returns `none`
before building anything; otherwise it spawns exactly the two recorded
stages in order. -/
def generateGIF (ffmpegBin : Option String) (tmpdir : String)
    (opts : RecordingOptions) (scale : Option ℚ) : Option GifResult :=
  match ffmpegBin with
  | none => none
  | some bin =>
    let vf := gifVf opts scale
    let paletteFile := tmpdir ++ "/palette-gen.png"
    let final := replaceFirst opts.file ".mp4" ".gif"
    some
      { binary := bin
        paletteArgs := ["-i", opts.file, "-vf", vf ++ ",palettegen=stats_mode=diff",
                        "-y", paletteFile]
        gifArgs := ["-i", opts.file, "-i", paletteFile, "-lavfi",
                    "\"" ++ vf ++ ",paletteuse=dither=bayer:bayer_scale=5:diff_mode=rectangle\"",
                    "-y", final]
        paletteFile := paletteFile
        final := final }

end FFmpegUtil

/-- The processes a `generateGIF` call hands to `Util.processToPromise`,
in order: none at all when the guard short-circuits, else the palette stage
followed by the palette-use stage. -/
def gifSpawns (r : Option FFmpegUtil.GifResult) : List (String × List String) :=
  match r with
  | none => []
  | some r => [(r.binary, r.paletteArgs), (r.binary, r.gifArgs)]

/-! ### Concrete scenario inputs used by the spec's scenarios -/

/-- An absent override bag: `opts.flags || {}` with `flags` unset. -/
def noFlags : String → JSVal := fun _ => JSVal.undefined

/-- The spec's scenario intent: region 800×600 at (0,0), fps 30, no audio,
no duration, no overrides. -/
def scenarioOpts : RecordingOptions where
  bounds := { x := 0, y := 0, width := 800, height := 600 }
  fps := 30
  duration := none
  audio := false
  file := "/tmp/rec.mp4"
  ffmpegBinary := "ffmpeg"
  flags := noFlags

/-- The `ResolvedInput` the win32 branch produces for an intent without
audio. -/
def scenarioInputWin : ResolvedInput where
  resolution := none
  video := { f := "dshow", i := "video=\"screen-capture-recorder\"" }
  audio := none

/-- The scenario intent with duration 10 requested. -/
def scenarioOptsDur : RecordingOptions :=
  { scenarioOpts with duration := some 10 }

/-- The scenario intent with audio requested. -/
def scenarioOptsAudio : RecordingOptions :=
  { scenarioOpts with audio := true }

/-- The `ResolvedInput` the linux branch produces for an intent with audio. -/
def scenarioInputLinuxAudio : ResolvedInput where
  resolution := none
  video := { f := "x11grab", i := ":0.0" }
  audio := some { f := "pulse", i := "default" }

/-- The scenario intent whose output path contains `.mp4` twice, the second
occurrence being the suffix. -/
def doubleOpts : RecordingOptions :=
  { scenarioOpts with file := "a.mp4.mp4" }

/-- A captured darwin device-listing text whose Capture Screen entry has
index 1, with a microphone line present. -/
def macListText : String :=
  "AVFoundation video devices:\n[0] FaceTime HD Camera\n[1] Capture Screen\nAVFoundation audio devices:\n[0] Mac Built-in Microphone\n"

/-- The same listing text without any microphone line. -/
def macListTextNoMic : String :=
  "AVFoundation video devices:\n[0] FaceTime HD Camera\n[1] Capture Screen\n"

/-- The `GifResult` of the transcode call on `scenarioOpts` with no scale
factor. -/
def scenarioGifNone : FFmpegUtil.GifResult where
  binary := "ffmpeg"
  paletteArgs := ["-i", "/tmp/rec.mp4", "-vf",
    "fps=30,scale=800:600:flags=lanczos,palettegen=stats_mode=diff", "-y",
    "/tmp/palette-gen.png"]
  gifArgs := ["-i", "/tmp/rec.mp4", "-i", "/tmp/palette-gen.png", "-lavfi",
    "\"fps=30,scale=800:600:flags=lanczos,paletteuse=dither=bayer:bayer_scale=5:diff_mode=rectangle\"",
    "-y", "/tmp/rec.gif"]
  paletteFile := "/tmp/palette-gen.png"
  final := "/tmp/rec.gif"

/-- The `GifResult` of the transcode call on `doubleOpts` with no scale
factor: note the first `.mp4` occurrence, not the suffix, was rewritten. -/
def doubleGifR : FFmpegUtil.GifResult where
  binary := "ffmpeg"
  paletteArgs := ["-i", "a.mp4.mp4", "-vf",
    "fps=30,scale=800:600:flags=lanczos,palettegen=stats_mode=diff", "-y",
    "/tmp/palette-gen.png"]
  gifArgs := ["-i", "a.mp4.mp4", "-i", "/tmp/palette-gen.png", "-lavfi",
    "\"fps=30,scale=800:600:flags=lanczos,paletteuse=dither=bayer:bayer_scale=5:diff_mode=rectangle\"",
    "-y", "a.gif.mp4"]
  paletteFile := "/tmp/palette-gen.png"
  final := "a.gif.mp4"

/-- Decidable equality of `Except` results, for evaluating the resolver on
concrete scenarios. -/
instance {ε α : Type} [DecidableEq ε] [DecidableEq α] : DecidableEq (Except ε α) := fun a b =>
  match a, b with
  | .error e, .error e' =>
    if h : e = e' then .isTrue (by rw [h]) else .isFalse (by intro hc; cases hc; exact h rfl)
  | .ok v, .ok v' =>
    if h : v = v' then .isTrue (by rw [h]) else .isFalse (by intro hc; cases hc; exact h rfl)
  | .error _, .ok _ => .isFalse (by intro hc; cases hc)
  | .ok _, .error _ => .isFalse (by intro hc; cases hc)

/-- `getAll` as a structural recursion over the key list: used to reason
about where each flag/value pair lands in the output. -/
def pairsOf (src target : String → JSVal) (override : Option (String → String)) :
    List String → List String
  | [] => []
  | k :: ks =>
    FFmpegUtil.get src k target (some (FFmpegUtil.ovKey override k))
      ++ pairsOf src target override ks

/-! ## Helper lemmas -/

theorem getAll_foldl_acc (src target : String → JSVal) (override : Option (String → String)) :
    ∀ (keys : List String) (acc : List String),
      keys.foldl
        (fun acc k => acc ++ FFmpegUtil.get src k target (some (FFmpegUtil.ovKey override k)))
        acc
      = acc ++ pairsOf src target override keys := by
  intro keys
  induction keys with
  | nil => intro acc; simp [pairsOf]
  | cons k ks ih => intro acc; simp [pairsOf, List.foldl_cons, ih]

theorem getAll_eq_pairsOf (src target : String → JSVal) (override : Option (String → String))
    (keys : List String) :
    FFmpegUtil.getAll src target keys override = pairsOf src target override keys := by
  simpa using getAll_foldl_acc src target override keys []

theorem pairsOf_mem_split (src target : String → JSVal) (override : Option (String → String))
    (k : String) :
    ∀ keys : List String, k ∈ keys →
      ∃ pre post, pairsOf src target override keys
        = pre ++ FFmpegUtil.get src k target (some (FFmpegUtil.ovKey override k)) ++ post := by
  intro keys
  induction keys with
  | nil => intro h; cases h
  | cons a ks ih =>
    intro h
    rcases List.mem_cons.mp h with h | h
    · subst h
      exact ⟨[], pairsOf src target override ks, by simp [pairsOf]⟩
    · obtain ⟨pre, post, hsplit⟩ := ih h
      clear ih
      refine ⟨FFmpegUtil.get src a target (some (FFmpegUtil.ovKey override a)) ++ pre, post, ?_⟩
      simp only [pairsOf]
      rw [hsplit]
      simp [List.append_assoc]

theorem isPre_append_of_le (pat l r : List Char) (h : pat.length ≤ l.length) :
    List.isPrefixOf pat (l ++ r) = List.isPrefixOf pat l := by
  induction pat generalizing l with
  | nil => simp [List.isPrefixOf]
  | cons p ps ih =>
    cases l with
    | nil => simp at h
    | cons a as =>
      simp only [List.cons_append, List.isPrefixOf, List.append_eq]
      rw [ih as (by simpa using h)]

theorem spanFalse (c : Char) (b : List Char) (h : b.length < 3) :
    List.isPrefixOf ['.', 'm', 'p', '4'] (c :: b ++ ['.', 'm', 'p', '4']) = false := by
  rcases b with _ | ⟨d, _ | ⟨e, _ | ⟨f, rest⟩⟩⟩
  · simp [List.isPrefixOf]
  · simp [List.isPrefixOf]
  · simp [List.isPrefixOf]
  · simp only [List.length_cons] at h
    omega

theorem replaceAux_append (b : List Char) (h : occursIn ['.', 'm', 'p', '4'] b = false) :
    replaceFirstAux ['.', 'm', 'p', '4'] ['.', 'g', 'i', 'f'] (b ++ ['.', 'm', 'p', '4'])
      = b ++ ['.', 'g', 'i', 'f'] := by
  induction b with
  | nil => decide
  | cons c cs ih =>
    have hsplit : List.isPrefixOf ['.', 'm', 'p', '4'] (c :: cs) = false ∧
        occursIn ['.', 'm', 'p', '4'] cs = false := by
      simpa [occursIn] using h
    have key : List.isPrefixOf ['.', 'm', 'p', '4'] (c :: (cs ++ ['.', 'm', 'p', '4'])) = false := by
      by_cases hlen : 3 ≤ cs.length
      · have hsame : (c :: cs) ++ ['.', 'm', 'p', '4'] = c :: (cs ++ ['.', 'm', 'p', '4']) := rfl
        rw [← hsame, isPre_append_of_le _ _ _ (by simp; omega)]
        exact hsplit.1
      · exact spanFalse c cs (by omega)
    simp only [List.cons_append, replaceFirstAux, List.append_eq, key, Bool.false_eq_true,
      if_false]
    rw [ih hsplit.2]

/-! ## The claims -/

/-- **C1.**  For the intent with region 800×600 at (0,0), fps 30, audio
disabled, no duration, on the win32 (DirectShow) platform, the resolver
yields the fixed dshow device and the synthesized token sequence contains
the adjacent pairs `-f dshow`, `-i video="screen-capture-recorder"` and
`-video_size 800x600`, contains no `-t` token at all, and ends with the
`-vf` value whose filter expression is `crop=800:600:0:0` (wrapped in the
source's literal single quotes) followed by the destination path as the
final token. -/
theorem claim1 :
    FFmpegUtil.getInputDevices .win32 ⟨"", 0, 0⟩ scenarioOpts = .ok (some scenarioInputWin) ∧
    FFmpegUtil.launchTokens scenarioOpts scenarioInputWin
      = ["-threads", "4", "-capture_cursor", "1", "-r", "30", "-video_size", "800x600",
         "-f", "dshow", "-i", "video=\"screen-capture-recorder\"",
         "-preset", "ultrafast", "-crf", "22", "-c:v", "libx264",
         "-vf", "\x27crop=800:600:0:0\x27", "/tmp/rec.mp4"] ∧
    ["-f", "dshow"] <:+: FFmpegUtil.launchTokens scenarioOpts scenarioInputWin ∧
    ["-i", "video=\"screen-capture-recorder\""]
      <:+: FFmpegUtil.launchTokens scenarioOpts scenarioInputWin ∧
    ["-video_size", "800x600"] <:+: FFmpegUtil.launchTokens scenarioOpts scenarioInputWin ∧
    "-t" ∉ FFmpegUtil.launchTokens scenarioOpts scenarioInputWin ∧
    ["-vf", "\x27" ++ "crop=800:600:0:0" ++ "\x27", "/tmp/rec.mp4"]
      <:+ FFmpegUtil.launchTokens scenarioOpts scenarioInputWin := by
  decide

/-- **C2.**  For every flag name `k` of a default group (common, audio or
video) and every override bag `src`: `getAll` emits the pair produced by
`get` for `k` somewhere in its output, that pair is `-k` followed by the
override value at `k` when it is truthy and the table default otherwise;
with a substituted alternate key `ck` the override is looked up at `ck`
instead (the default still at `k`); and a falsy override value — `0`, the
empty string, or `false` — does not suppress the default. -/
theorem claim2 (src : String → JSVal) (grp : List (String × JSVal))
    (_hgrp : grp = FFmpegUtil.recordingArgs.common ∨ grp = FFmpegUtil.recordingArgs.audio ∨
      grp = FFmpegUtil.recordingArgs.video)
    (k : String) (hk : k ∈ tableKeys grp) :
    (∃ pre post,
      FFmpegUtil.getAll src (tableFn grp) (tableKeys grp) none
        = pre ++ FFmpegUtil.get src k (tableFn grp) (some k) ++ post) ∧
    FFmpegUtil.get src k (tableFn grp) (some k)
      = ["-" ++ k,
         if truthy (src k) then jsToString (src k) else jsToString (tableFn grp k)] ∧
    (∀ ck : String, ck ≠ "" →
      FFmpegUtil.get src k (tableFn grp) (some ck)
        = ["-" ++ k,
           if truthy (src ck) then jsToString (src ck) else jsToString (tableFn grp k)]) ∧
    ((src k = JSVal.num 0 ∨ src k = JSVal.str "" ∨ src k = JSVal.bool false) →
      FFmpegUtil.get src k (tableFn grp) (some k) = ["-" ++ k, jsToString (tableFn grp k)]) := by
  clear _hgrp
  have hek : (if k = "" then k else k) = k := by split <;> rfl
  refine ⟨?_, ?_, ?_, ?_⟩
  · obtain ⟨pre, post, hs⟩ := pairsOf_mem_split src (tableFn grp) none k (tableKeys grp) hk
    refine ⟨pre, post, ?_⟩
    rw [getAll_eq_pairsOf, hs]
    rfl
  · simp only [FFmpegUtil.get, hek, jsOr, apply_ite jsToString]
  · intro ck hck
    simp only [FFmpegUtil.get, if_neg hck, jsOr, apply_ite jsToString]
  · intro hfalsy
    have ht : truthy (src k) = false := by
      rcases hfalsy with h | h | h <;> rw [h] <;> rfl
    simp only [FFmpegUtil.get, hek, jsOr, ht, Bool.false_eq_true, if_false]

/-- Witness for C2: the override bag mapping every key to `0` for key
`threads` of the common group: the falsy override is ignored and the
default `4` is emitted. -/
theorem claim2_witness :
    ("threads" ∈ tableKeys FFmpegUtil.recordingArgs.common) ∧
    ((∃ pre post,
        FFmpegUtil.getAll (fun _ => JSVal.num 0) (tableFn FFmpegUtil.recordingArgs.common)
          (tableKeys FFmpegUtil.recordingArgs.common) none
          = pre ++ FFmpegUtil.get (fun _ => JSVal.num 0) "threads"
              (tableFn FFmpegUtil.recordingArgs.common) (some "threads") ++ post) ∧
      FFmpegUtil.get (fun _ => JSVal.num 0) "threads"
          (tableFn FFmpegUtil.recordingArgs.common) (some "threads")
        = ["-" ++ "threads",
           if truthy (JSVal.num 0) then jsToString (JSVal.num 0)
           else jsToString (tableFn FFmpegUtil.recordingArgs.common "threads")] ∧
      (∀ ck : String, ck ≠ "" →
        FFmpegUtil.get (fun _ => JSVal.num 0) "threads"
            (tableFn FFmpegUtil.recordingArgs.common) (some ck)
          = ["-" ++ "threads",
             if truthy (JSVal.num 0) then jsToString (JSVal.num 0)
             else jsToString (tableFn FFmpegUtil.recordingArgs.common "threads")]) ∧
      ((JSVal.num 0 = JSVal.num 0 ∨ JSVal.num 0 = JSVal.str "" ∨
          JSVal.num 0 = JSVal.bool false) →
        FFmpegUtil.get (fun _ => JSVal.num 0) "threads"
            (tableFn FFmpegUtil.recordingArgs.common) (some "threads")
          = ["-" ++ "threads", jsToString (tableFn FFmpegUtil.recordingArgs.common "threads")])) :=
  ⟨by decide, claim2 (fun _ => JSVal.num 0) FFmpegUtil.recordingArgs.common (Or.inl rfl)
    "threads" (by decide)⟩

/-- **C3.**  When a (nonzero, hence truthy) duration `d` is requested, the
duration pair is prepended at the very front, so the full token sequence
begins with `-t d`; when the duration test is falsy (absent or `0`), the
token `-t` does not occur at any flag position of the synthesized
flag/value region (`evens` extracts exactly the flag positions; the
values, which callers control through the override bag, and the trailing
positional path token are not flags). -/
theorem claim3 (opts : RecordingOptions) (input : ResolvedInput) :
    (∀ d : Nat, opts.duration = some d → d ≠ 0 →
      ∃ rest, FFmpegUtil.launchTokens opts input = "-t" :: toString d :: rest) ∧
    (durTruthy opts.duration = false →
      "-t" ∉ evens (FFmpegUtil.launchProcessArgs opts input)) := by
  constructor
  · intro d hd hdz
    have ht : durTruthy (some d) = true := by
      simpa [durTruthy] using hdz
    have hw : FFmpegUtil.withDur opts (FFmpegUtil.baseArgs opts input)
        = "-t" :: toString d :: FFmpegUtil.baseArgs opts input := by
      simp [FFmpegUtil.withDur, hd, ht]
    cases hia : input.audio <;> cases hau : opts.audio <;>
      simp only [FFmpegUtil.launchTokens, FFmpegUtil.launchProcessArgs, FFmpegUtil.withAudio,
        hia, hau, hw, Bool.false_eq_true, if_false, if_true, List.cons_append,
        List.append_assoc] <;>
      exact ⟨_, rfl⟩
  · intro h
    simp only [FFmpegUtil.launchProcessArgs, FFmpegUtil.withAudio, FFmpegUtil.withDur, h,
      Bool.false_eq_true, if_false]
    cases hia : input.audio <;> cases hau : opts.audio <;>
      simp only [hau, if_true, Bool.false_eq_true, if_false] <;>
      simp [FFmpegUtil.baseArgs, FFmpegUtil.getAll, FFmpegUtil.get, FFmpegUtil.ovKey,
        tableFn, tableKeys, FFmpegUtil.recordingArgs, deviceFn, evens]

/-- Witness for C3: with duration 10 the sequence begins with `-t 10`; with
no duration `-t` occurs at no flag position. -/
theorem claim3_witness :
    (scenarioOptsDur.duration = some 10) ∧ ((10 : Nat) ≠ 0) ∧
    (∃ rest, FFmpegUtil.launchTokens scenarioOptsDur scenarioInputWin
      = "-t" :: toString (10 : Nat) :: rest) ∧
    (durTruthy scenarioOpts.duration = false) ∧
    ("-t" ∉ evens (FFmpegUtil.launchProcessArgs scenarioOpts scenarioInputWin)) :=
  ⟨rfl, by decide, (claim3 scenarioOptsDur scenarioInputWin).1 10 rfl (by decide),
    rfl, (claim3 scenarioOpts scenarioInputWin).2 rfl⟩

/-- **C4 (counterexample).**  On linux with audio requested, the audio
device's pairs are emitted under the plain flag names `-f` and `-i` — no
token `-audio_f` or `-audio_i` occurs anywhere in the sequence, so the
claim that the emitted flag names carry an `audio_` prefix is false. -/
theorem claim4_counterexample :
    FFmpegUtil.getInputDevices .linux ⟨"", 0, 0⟩ scenarioOptsAudio
      = .ok (some scenarioInputLinuxAudio) ∧
    ["-f", "pulse"] <:+: FFmpegUtil.launchTokens scenarioOptsAudio scenarioInputLinuxAudio ∧
    ["-i", "default"] <:+: FFmpegUtil.launchTokens scenarioOptsAudio scenarioInputLinuxAudio ∧
    "-audio_f" ∉ FFmpegUtil.launchTokens scenarioOptsAudio scenarioInputLinuxAudio ∧
    "-audio_i" ∉ FFmpegUtil.launchTokens scenarioOptsAudio scenarioInputLinuxAudio := by
  decide

/-- **C4 (amended).**  When audio is requested and an audio device was
resolved, the sequence contains the audio device's format and selector
pairs, emitted under the same flag names `-f`/`-i` as the video device's;
the `audio_` prefix applies only to the key under which the caller's
override bag is consulted for these two flags. -/
theorem claim4 (opts : RecordingOptions) (input : ResolvedInput) (dev : Device)
    (ha : opts.audio = true) (hdev : input.audio = some dev) :
    ∃ pre post, FFmpegUtil.launchProcessArgs opts input
      = pre ++ ["-f", jsToString (jsOr (opts.flags ("audio_" ++ "f")) (JSVal.str dev.f)),
                "-i", jsToString (jsOr (opts.flags ("audio_" ++ "i")) (JSVal.str dev.i))]
            ++ post := by
  refine ⟨FFmpegUtil.withDur opts (FFmpegUtil.baseArgs opts input),
    FFmpegUtil.getAll opts.flags (tableFn FFmpegUtil.recordingArgs.audio)
        (tableKeys FFmpegUtil.recordingArgs.audio) none
      ++ FFmpegUtil.getAll opts.flags (tableFn FFmpegUtil.recordingArgs.video)
          (tableKeys FFmpegUtil.recordingArgs.video) none
      ++ ["-vf", "\x27" ++ FFmpegUtil.cropVf opts input ++ "\x27"], ?_⟩
  have hf : FFmpegUtil.getAll opts.flags (deviceFn dev) ["f"] (some fun x => "audio_" ++ x)
      = ["-f", jsToString (jsOr (opts.flags ("audio_" ++ "f")) (JSVal.str dev.f))] := by
    simp [FFmpegUtil.getAll, FFmpegUtil.get, FFmpegUtil.ovKey, deviceFn]
  have hi : FFmpegUtil.getAll opts.flags (deviceFn dev) ["i"] (some fun x => "audio_" ++ x)
      = ["-i", jsToString (jsOr (opts.flags ("audio_" ++ "i")) (JSVal.str dev.i))] := by
    simp [FFmpegUtil.getAll, FFmpegUtil.get, FFmpegUtil.ovKey, deviceFn]
  simp only [FFmpegUtil.launchProcessArgs, FFmpegUtil.withAudio, ha, if_true, hdev, hf, hi]
  simp [List.append_assoc]

/-- Witness for C4 (amended): the linux-with-audio scenario, where the
emitted pairs are `-f pulse` and `-i default`. -/
theorem claim4_witness :
    (scenarioOptsAudio.audio = true) ∧
    (scenarioInputLinuxAudio.audio = some { f := "pulse", i := "default" }) ∧
    (∃ pre post, FFmpegUtil.launchProcessArgs scenarioOptsAudio scenarioInputLinuxAudio
      = pre ++ ["-f", jsToString (jsOr (scenarioOptsAudio.flags ("audio_" ++ "f"))
                  (JSVal.str "pulse")),
                "-i", jsToString (jsOr (scenarioOptsAudio.flags ("audio_" ++ "i"))
                  (JSVal.str "default"))]
            ++ post) :=
  ⟨rfl, rfl, claim4 scenarioOptsAudio scenarioInputLinuxAudio { f := "pulse", i := "default" }
    rfl rfl⟩

/-- **C5.**  On darwin, whenever the Capture Screen scan of the discovery
text yields index `n`, resolution with audio disabled succeeds with the
selector `'n:none'` (single quotes as in the source) — no microphone
pattern is ever consulted on this path, so the result does not depend on
whether a microphone line is present. -/
theorem claim5 (text : String) (n : String) (h : findCaptureScreen text = some n) :
    FFmpegUtil.getMacInputDevices text false = .ok ("\x27" ++ n ++ ":none\x27") := by
  unfold FFmpegUtil.getMacInputDevices
  rw [h]
  rfl

/-- Witness for C5: the scan of a realistic listing finds index 1 and the
selector is `'1:none'`, both with and without a microphone line present. -/
theorem claim5_witness :
    findCaptureScreen macListText = some "1" ∧
    FFmpegUtil.getMacInputDevices macListText false = .ok ("\x27" ++ "1" ++ ":none\x27") ∧
    findCaptureScreen macListTextNoMic = some "1" ∧
    FFmpegUtil.getMacInputDevices macListTextNoMic false = .ok ("\x27" ++ "1" ++ ":none\x27") :=
  ⟨by decide, claim5 _ _ (by decide), by decide, claim5 _ _ (by decide)⟩

/-- **C6 (counterexample).**  The output path is produced by JS
`String.replace`, which rewrites the FIRST occurrence of `.mp4`, not the
suffix: for the recording `a.mp4.mp4` (which ends in `.mp4`) the transcode
writes to `a.gif.mp4`, not to the suffix-rewritten `a.mp4.gif`. -/
theorem claim6_counterexample :
    FFmpegUtil.generateGIF (some "ffmpeg") "/tmp" doubleOpts none = some doubleGifR ∧
    doubleOpts.file = "a.mp4" ++ ".mp4" ∧
    doubleGifR.final = "a.gif.mp4" ∧
    doubleGifR.final ≠ "a.mp4" ++ ".gif" := by
  decide

/-- **C6 (amended).**  The transcode output path is the recording path with
its first `.mp4` occurrence replaced by `.gif`; whenever `.mp4` occurs in
the path exactly once, as its suffix, this coincides with replacing the
`.mp4` suffix by `.gif`, which is the returned output path. -/
theorem claim6 (base fb tmpdir : String) (opts : RecordingOptions) (scale : Option ℚ)
    (r : FFmpegUtil.GifResult)
    (hb : occursIn (".mp4".data) base.data = false)
    (hfile : opts.file = base ++ ".mp4")
    (h : FFmpegUtil.generateGIF (some fb) tmpdir opts scale = some r) :
    r.final = base ++ ".gif" := by
  simp only [FFmpegUtil.generateGIF, Option.some.injEq] at h
  subst h
  show replaceFirst opts.file ".mp4" ".gif" = base ++ ".gif"
  rw [hfile]
  unfold replaceFirst
  rw [String.data_append]
  rw [show (".mp4" : String).data = ['.', 'm', 'p', '4'] from rfl,
    show (".gif" : String).data = ['.', 'g', 'i', 'f'] from rfl]
  rw [replaceAux_append base.data hb]
  apply String.ext
  rw [String.data_append]

/-- Witness for C6 (amended): the scenario path `/tmp/rec.mp4` transcodes to
`/tmp/rec.gif`. -/
theorem claim6_witness :
    (occursIn (".mp4".data) ("/tmp/rec" : String).data = false) ∧
    (scenarioOpts.file = "/tmp/rec" ++ ".mp4") ∧
    (FFmpegUtil.generateGIF (some "ffmpeg") "/tmp" scenarioOpts none = some scenarioGifNone) ∧
    scenarioGifNone.final = "/tmp/rec" ++ ".gif" :=
  ⟨by decide, by decide, by decide,
    claim6 "/tmp/rec" "ffmpeg" "/tmp" scenarioOpts none scenarioGifNone
      (by decide) (by decide) (by decide)⟩

/-- **C7.**  Within one transcode call the palette-generation filter value
and the palette-use filter value are built from the one shared chain
`fps=<fps>,scale=<w>:<h>:flags=lanczos` (the stage-2 token additionally
wraps the expression in the source's literal double quotes); the two
stages therefore share that prefix identically, for any scale factor. -/
theorem claim7 (ffmpegBin : Option String) (tmpdir : String) (opts : RecordingOptions)
    (scale : Option ℚ) (r : FFmpegUtil.GifResult)
    (h : FFmpegUtil.generateGIF ffmpegBin tmpdir opts scale = some r) :
    ∃ sw sh : String,
      FFmpegUtil.gifVf opts scale
        = "fps=" ++ toString opts.fps ++ ",scale=" ++ sw ++ ":" ++ sh ++ ":flags=lanczos" ∧
      r.paletteArgs = ["-i", opts.file, "-vf",
        FFmpegUtil.gifVf opts scale ++ ",palettegen=stats_mode=diff", "-y", r.paletteFile] ∧
      r.gifArgs = ["-i", opts.file, "-i", r.paletteFile, "-lavfi",
        "\"" ++ FFmpegUtil.gifVf opts scale
          ++ ",paletteuse=dither=bayer:bayer_scale=5:diff_mode=rectangle\"",
        "-y", r.final] := by
  cases ffmpegBin with
  | none => simp [FFmpegUtil.generateGIF] at h
  | some bin =>
    simp only [FFmpegUtil.generateGIF, Option.some.injEq] at h
    subst h
    cases hs : scaleTruthy scale with
    | false =>
      exact ⟨toString opts.bounds.width, toString opts.bounds.height,
        by simp [FFmpegUtil.gifVf, hs], rfl, rfl⟩
    | true =>
      exact ⟨toString (jsTrunc ((opts.bounds.width : ℚ) * scale.getD 0)),
        toString (jsTrunc ((opts.bounds.height : ℚ) * scale.getD 0)),
        by simp [FFmpegUtil.gifVf, hs], rfl, rfl⟩

/-- Witness for C7: the scenario transcode (no scale factor), whose two
filter values share the prefix `fps=30,scale=800:600:flags=lanczos`. -/
theorem claim7_witness :
    (FFmpegUtil.generateGIF (some "ffmpeg") "/tmp" scenarioOpts none = some scenarioGifNone) ∧
    (∃ sw sh : String,
      FFmpegUtil.gifVf scenarioOpts none
        = "fps=" ++ toString scenarioOpts.fps ++ ",scale=" ++ sw ++ ":" ++ sh
            ++ ":flags=lanczos" ∧
      scenarioGifNone.paletteArgs = ["-i", scenarioOpts.file, "-vf",
        FFmpegUtil.gifVf scenarioOpts none ++ ",palettegen=stats_mode=diff",
        "-y", scenarioGifNone.paletteFile] ∧
      scenarioGifNone.gifArgs = ["-i", scenarioOpts.file, "-i", scenarioGifNone.paletteFile,
        "-lavfi", "\"" ++ FFmpegUtil.gifVf scenarioOpts none
          ++ ",paletteuse=dither=bayer:bayer_scale=5:diff_mode=rectangle\"",
        "-y", scenarioGifNone.final]) :=
  ⟨by decide, claim7 (some "ffmpeg") "/tmp" scenarioOpts none scenarioGifNone (by decide)⟩

/-- **C9 (counterexample).**  The temporary palette file is NOT fresh per
call: two distinct transcode calls (different recordings) in the same
environment both use `/tmp/palette-gen.png`, refuting the claim that
distinct calls never share the temporary palette file. -/
theorem claim9_counterexample :
    FFmpegUtil.generateGIF (some "ffmpeg") "/tmp" scenarioOpts none = some scenarioGifNone ∧
    FFmpegUtil.generateGIF (some "ffmpeg") "/tmp" doubleOpts none = some doubleGifR ∧
    scenarioOpts.file ≠ doubleOpts.file ∧
    scenarioGifNone.paletteFile = doubleGifR.paletteFile := by
  decide

/-- **C9 (amended).**  Each transcode call does build its own argument lists
as a pure function of its inputs, but the temporary palette file is the
fixed path `palette-gen.png` under the OS temp directory — every call in
the same environment uses that same path, so concurrent calls would share
it. -/
theorem claim9 (fb tmpdir : String) (opts : RecordingOptions) (scale : Option ℚ)
    (r : FFmpegUtil.GifResult)
    (h : FFmpegUtil.generateGIF (some fb) tmpdir opts scale = some r) :
    r.paletteFile = tmpdir ++ "/palette-gen.png" := by
  simp only [FFmpegUtil.generateGIF, Option.some.injEq] at h
  subst h
  rfl

/-- Witness for C9 (amended): the scenario call's palette path is
`/tmp/palette-gen.png`. -/
theorem claim9_witness :
    (FFmpegUtil.generateGIF (some "ffmpeg") "/tmp" scenarioOpts none = some scenarioGifNone) ∧
    scenarioGifNone.paletteFile = "/tmp" ++ "/palette-gen.png" :=
  ⟨by decide, claim9 "ffmpeg" "/tmp" scenarioOpts none scenarioGifNone (by decide)⟩

/-- **C8.**  When the configuration collaborator resolves no encoder binary,
`generateGIF` returns no result and hands zero processes to the spawn
collaborator (the embedding is total, so no error is raised either). -/
theorem claim8 (tmpdir : String) (opts : RecordingOptions) (scale : Option ℚ) :
    FFmpegUtil.generateGIF none tmpdir opts scale = none ∧
    gifSpawns (FFmpegUtil.generateGIF none tmpdir opts scale) = [] :=
  ⟨rfl, rfl⟩

/-- **C10.**  A caller-supplied scale factor of 0 is falsy for the
`if (opts.scale)` test, so the whole transcode call — in particular the
filter chain — is built exactly as if no scale factor had been supplied:
the scale stage keeps the unscaled capture-region dimensions. -/
theorem claim10 (ffmpegBin : Option String) (tmpdir : String) (opts : RecordingOptions) :
    FFmpegUtil.generateGIF ffmpegBin tmpdir opts (some 0)
      = FFmpegUtil.generateGIF ffmpegBin tmpdir opts none ∧
    FFmpegUtil.gifVf opts (some 0) = FFmpegUtil.gifVf opts none := by
  refine ⟨?_, rfl⟩
  cases ffmpegBin <;> rfl

end Chronicler
